import Mathlib

/-!
Verification of the workshop-marketplace client (filter and rating engine,
vendor revenue aggregation, workshop update and registration actions).

The definitions below are a shallow embedding of the TypeScript sources:
  * src/app/workshops/page.tsx   (handleRate, toggleFavorite,
    handleRegisterClick, the `filtered` predicate chain)
  * src/app/vendor/page.tsx      (totalRevenue, handleEdit)
  * src/firebase/workshopActions.ts (updateWorkshop, registerForWorkshop)

JavaScript numbers are modelled as ℚ, JS objects used as string-keyed maps
as association lists in insertion order, optional fields as `Option`, and
the Firestore / DOM side effects of the event handlers as explicit effect
lists.
-/

/-- Boolean test that the first character list is a prefix of the second
(the character-by-character core of JS `String.prototype.includes`). -/
def chListPrefixOf : List Char → List Char → Bool
  | [], _ => true
  | _ :: _, [] => false
  | a :: as, b :: bs => a == b && chListPrefixOf as bs

/-- Boolean test that the first character list occurs contiguously inside
the second. -/
def chListInfixOf : List Char → List Char → Bool
  | n, [] => n.isEmpty
  | n, b :: bs => chListPrefixOf n (b :: bs) || chListInfixOf n bs

/-- Model of JS `s.toLowerCase()`: lower-case every character (as a
character list). -/
def lowerChars (s : String) : List Char :=
  s.toList.map Char.toLower

/-- Model of JS `hay.includes(needle)` for strings: substring test. -/
def strIncludes (hay needle : List Char) : Bool :=
  chListInfixOf needle hay

/-- A JS object used as a map from user id to rating value
(`Record<string, number>`), kept in insertion order. -/
abbrev RatingsMap := List (String × ℚ)

/-- Model of the JS assignment `obj[u] = v` on a string-keyed object:
if the key is present its value is replaced in place, otherwise the pair
is appended (JS insertion-order semantics). -/
def setKey (m : RatingsMap) (u : String) (v : ℚ) : RatingsMap :=
  if m.any (fun p => p.1 == u) then
    m.map (fun p => if p.1 == u then (u, v) else p)
  else
    m ++ [(u, v)]

/-- Model of the JS read `obj[u]`: value at the key, if present. -/
def getKey (m : RatingsMap) (u : String) : Option ℚ :=
  (m.find? (fun p => p.1 == u)).map Prod.snd

/-- Whether the key is present in the map. -/
def hasKey (m : RatingsMap) (u : String) : Bool :=
  m.any (fun p => p.1 == u)

/-- The `Workshop` record of src/app/workshops/page.tsx (the Firestore
document; `whatsappLink` is the extra field written by the vendor pages). -/
structure Workshop where
  id : String
  title : String
  description : String
  price : ℚ
  category : String
  imageUrl : String
  date : String
  vendorId : String
  location : String
  ageGroup : String
  whatsappLink : String
  rating : Option ℚ
  ratingCount : Option ℕ
  ratings : Option RatingsMap
deriving DecidableEq

/-- The seven filter states of the workshops page (`search`, `category`,
`location`, `priceRange`, `ageGroup`, `ratingFilter`, `vendorFilter`). -/
structure FilterCriteria where
  search : String
  category : String
  vendorFilter : String
  location : String
  ageGroup : String
  priceRange : String
  ratingFilter : String
deriving DecidableEq

/-- Line 149: `w.title.toLowerCase().includes(search.toLowerCase())`. -/
def matchesSearch (c : FilterCriteria) (w : Workshop) : Bool :=
  strIncludes (lowerChars w.title) (lowerChars c.search)

/-- Line 150: `category === "All" || w.category === category`. -/
def matchesCategory (c : FilterCriteria) (w : Workshop) : Bool :=
  c.category == "All" || w.category == c.category

/-- Line 151: `vendorFilter === "All" || w.vendorId === vendorFilter`. -/
def matchesVendor (c : FilterCriteria) (w : Workshop) : Bool :=
  c.vendorFilter == "All" || w.vendorId == c.vendorFilter

/-- Line 152: `location === "All" || w.location === location`. -/
def matchesLocation (c : FilterCriteria) (w : Workshop) : Bool :=
  c.location == "All" || w.location == c.location

/-- Line 153: `ageGroup === "All" || w.ageGroup === ageGroup`. -/
def matchesAge (c : FilterCriteria) (w : Workshop) : Bool :=
  c.ageGroup == "All" || w.ageGroup == c.ageGroup

/-- Lines 155-163: the price-bucket chain.  `matchesPrice` starts `true`
and each of the six `if` statements overwrites it when its selector
string matches; there is no final `else`. -/
def matchesPriceB (priceRange : String) (price : ℚ) : Bool :=
  let m := true
  let m := if priceRange == "0-2500" then decide (price ≤ 2500) else m
  let m := if priceRange == "2500-5000" then
    decide (2500 < price) && decide (price ≤ 5000) else m
  let m := if priceRange == "5000-10000" then
    decide (5000 < price) && decide (price ≤ 10000) else m
  let m := if priceRange == "10000-20000" then
    decide (10000 < price) && decide (price ≤ 20000) else m
  let m := if priceRange == "20000-30000" then
    decide (20000 < price) && decide (price ≤ 30000) else m
  let m := if priceRange == "30000+" then decide (30000 < price) else m
  m

/-- Price predicate applied to a record (line 155 reads `Number(w.price)`,
which is the identity on the numeric `price`). -/
def matchesPrice (c : FilterCriteria) (w : Workshop) : Bool :=
  matchesPriceB c.priceRange w.price

/-- Lines 165-166: `ratingFilter === "All" || (w.rating || 0) >=
Number(ratingFilter)`.  `Number` is modelled on the decimal-integer
strings the rating dropdown can produce ("1".."5"); a non-numeric string
yields NaN in JS, whose comparison is false, modelled by the `none`
branch. -/
def matchesRating (c : FilterCriteria) (w : Workshop) : Bool :=
  c.ratingFilter == "All" ||
    (match c.ratingFilter.toNat? with
     | none => false
     | some n => decide ((w.rating.getD 0) ≥ (n : ℚ)))

/-- The conjunction returned at lines 168-176. -/
def workshopPred (c : FilterCriteria) (w : Workshop) : Bool :=
  matchesSearch c w && matchesCategory c w && matchesVendor c w &&
    matchesLocation c w && matchesAge c w && matchesPrice c w &&
    matchesRating c w

/-- Line 148: `workshops.filter((w) => ...)`. -/
def filteredWorkshops (ws : List Workshop) (c : FilterCriteria) :
    List Workshop :=
  ws.filter (workshopPred c)

/-- The criteria in their initial state (lines 40-46): empty search text
and every selector "All". -/
def allCriteria : FilterCriteria :=
  { search := "", category := "All", vendorFilter := "All",
    location := "All", ageGroup := "All", priceRange := "All",
    ratingFilter := "All" }

/-- The pure core of `handleRate` (lines 128-132): upsert the user's
rating into the map, then the list of values, their sum via
`reduce((a, b) => a + b, 0)` and the average. -/
def computeRating (w : Workshop) (uid : String) (v : ℚ) :
    RatingsMap × ℚ × ℕ :=
  let currentRatings := setKey (w.ratings.getD []) uid v
  let values := currentRatings.map Prod.snd
  (currentRatings,
   values.foldl (fun a b => a + b) 0 / (values.length : ℚ),
   values.length)

/-- The record produced by `handleRate` for the rated workshop (the field
update written at lines 134-141): new `ratings` map, recomputed `rating`
average and `ratingCount`. -/
def rateRecord (w : Workshop) (uid : String) (v : ℚ) : Workshop :=
  let t := computeRating w uid v
  { w with ratings := some t.1, rating := some t.2.1,
           ratingCount := some t.2.2 }

/-- Arithmetic mean of a list of rationals (sum of the values divided by
how many there are): the specification-side definition of `mean`. -/
def listMean (l : List ℚ) : ℚ := l.sum / (l.length : ℚ)

/-- The workshop of the worked example in the specification: two stored
ratings, `u1 ↦ 4` and `u2 ↦ 5`. -/
def exampleWorkshop : Workshop :=
  { id := "w", title := "Pottery", description := "", price := 1500,
    category := "Art", imageUrl := "", date := "2026-01-01",
    vendorId := "vend1", location := "Colombo", ageGroup := "Adults",
    whatsappLink := "", rating := some (9 / 2), ratingCount := some 2,
    ratings := some [("u1", 4), ("u2", 5)] }

/-- The observable side effects of the workshops-page event handlers:
browser alerts, `preventDefault`, page reload, and the Firestore writes
(`updateDoc` on a user's favorites, on a workshop document, on a user's
`registeredWorkshops`, and `addDoc` of a registration). -/
inductive Effect where
  | alert (msg : String)
  | favoritesAdd (uid workshopId : String)
  | favoritesRemove (uid workshopId : String)
  | workshopWrite (workshopId : String) (ratings : RatingsMap)
      (rating : ℚ) (ratingCount : ℕ)
  | registrationCreate (workshopId userId receiptUrl status : String)
      (consentAccepted : Bool)
  | userRegisteredAdd (uid workshopId : String)
  | preventDefault
  | pageReload
deriving DecidableEq

/-- Whether an effect writes state to the backing store. -/
def Effect.isWrite : Effect → Bool
  | favoritesAdd _ _ => true
  | favoritesRemove _ _ => true
  | workshopWrite _ _ _ _ => true
  | registrationCreate _ _ _ _ _ => true
  | userRegisteredAdd _ _ => true
  | _ => false

/-- Whether an effect is a blocking notice shown to the user. -/
def Effect.isNotice : Effect → Bool
  | alert _ => true
  | _ => false

/-- The per-user data read from the auth context (`userData`): the
favorites set and the registered-workshop set, both optional fields of
the user document. -/
structure UserData where
  favorites : Option (List String)
  registeredWorkshops : Option (List String)
deriving DecidableEq

/-- Lines 76-105, `toggleFavorite`: with no signed-in user (or no user
document) it alerts and stops; otherwise it removes or adds the workshop
id in the user's favorites and reloads the page. -/
def toggleFavorite (user : Option String) (userData : Option UserData)
    (workshopId : String) : List Effect :=
  match user, userData with
  | some uid, some ud =>
    let isFav := (ud.favorites.getD []).contains workshopId
    if isFav then
      [Effect.favoritesRemove uid workshopId, Effect.pageReload]
    else
      [Effect.favoritesAdd uid workshopId, Effect.pageReload]
  | _, _ => [Effect.alert "Please login to add to favorites."]

/-- Lines 107-114, `handleRegisterClick`: with no signed-in user the
navigation is cancelled and an alert shown; otherwise nothing (the link
proceeds). -/
def handleRegisterClick (user : Option String) : List Effect :=
  match user with
  | none => [Effect.preventDefault,
             Effect.alert "Register or login to register for a workshop"]
  | some _ => []

/-- Lines 116-146, `handleRate`: with no signed-in user it returns at
once; with an unknown workshop id it returns after the lookup; otherwise
it upserts the rating, writes the updated map, average and count to the
workshop document, and updates the local list the same way.  The result
is the new local workshop list and the effect trace. -/
def handleRate (user : Option String) (workshops : List Workshop)
    (workshopId : String) (rating : ℚ) : List Workshop × List Effect :=
  match user with
  | none => (workshops, [])
  | some uid =>
    match workshops.find? (fun w => w.id == workshopId) with
    | none => (workshops, [])
    | some w =>
      let t := computeRating w uid rating
      (workshops.map (fun x =>
         if x.id == workshopId then
           { x with ratings := some t.1, rating := some t.2.1,
                    ratingCount := some t.2.2 }
         else x),
       [Effect.workshopWrite workshopId t.1 t.2.1 t.2.2])

/-- The participant rows built by the vendor dashboard (lines 28-36 and
109-117 of src/app/vendor/page.tsx); only the fields the analytics read
are relevant, but all are kept. -/
structure Participant where
  uid : String
  displayName : String
  email : String
  phoneNumber : Option String
  receiptUrl : Option String
  status : Option String
  registrationId : Option String
deriving DecidableEq

/-- The participants counted as revenue at line 224:
`p.status === 'approved' || !p.status || p.status === 'pending'`
(`!p.status` is true exactly when the optional field is absent). -/
def countsAsRevenue (p : Participant) : Bool :=
  p.status == some "approved" || p.status == none || p.status == some "pending"

/-- Line 224: `participantsMap[ws.id]?.filter(...).length || 0` — the
number of revenue-counted participants of one workshop, 0 when the map
has no entry for it. -/
def revenueCount (entry : Option (List Participant)) : ℕ :=
  match entry with
  | some l => (l.filter countsAsRevenue).length
  | none => 0

/-- Lines 223-226, `totalRevenue`: fold over the vendor's workshops,
adding `price * count` where `count` is the number of non-rejected
participants for that workshop (`?.` and `|| 0` make a missing entry in
the participants map contribute 0). -/
def totalRevenue (workshops : List Workshop)
    (participantsMap : String → Option (List Participant)) : ℚ :=
  workshops.foldl (fun acc ws =>
    let count : ℕ := revenueCount (participantsMap ws.id)
    acc + ws.price * (Nat.cast count : ℚ)) 0

/-- A browser `File` object, identified by its name. -/
structure JsFile where
  name : String
deriving DecidableEq

/-- A value stored in a Firestore document field: a string, a number, a
natural count, a ratings map, or (erroneously) a raw file object. -/
inductive FireValue where
  | str (s : String)
  | num (q : ℚ)
  | nat (n : ℕ)
  | rmap (m : RatingsMap)
  | file (f : JsFile)
deriving DecidableEq

/-- Model of `Partial<WorkshopData>` (src/firebase/workshopActions.ts
lines 17-25): every field optional, `image` a raw file object. -/
structure WorkshopDataPatch where
  title : Option String
  description : Option String
  price : Option ℚ
  date : Option String
  category : Option String
  image : Option JsFile
  whatsappLink : Option String
deriving DecidableEq

/-- One field of an object literal: present optional values contribute
one key-value pair, absent ones contribute nothing. -/
def optEntry (name : String) (v : Option FireValue) :
    List (String × FireValue) :=
  match v with
  | some x => [(name, x)]
  | none => []

/-- The field list produced by the object spread `{ ...data }`: one
entry per present optional field, the raw file under the key "image". -/
def spreadFields (d : WorkshopDataPatch) : List (String × FireValue) :=
  optEntry "title" (d.title.map FireValue.str) ++
  optEntry "description" (d.description.map FireValue.str) ++
  optEntry "price" (d.price.map FireValue.num) ++
  optEntry "date" (d.date.map FireValue.str) ++
  optEntry "category" (d.category.map FireValue.str) ++
  optEntry "image" (d.image.map FireValue.file) ++
  optEntry "whatsappLink" (d.whatsappLink.map FireValue.str)

/-- Lines 83-113, `updateWorkshop`, as the field map handed to
`updateDoc`: `imageUrl` is the upload URL when a new image file was
supplied (else the empty string, line 85); the spread of `data` has its
`image` key deleted (lines 105-106); a non-empty upload URL is added
under `imageUrl` (lines 109-111). -/
def updateWorkshopPayload (d : WorkshopDataPatch) (uploadedUrl : String) :
    List (String × FireValue) :=
  let imageUrl := match d.image with
    | some _ => uploadedUrl
    | none => ""
  let cleaned := (spreadFields d).filter (fun p => !(p.1 == "image"))
  if imageUrl == "" then cleaned
  else cleaned ++ [("imageUrl", FireValue.str imageUrl)]

/-- One field written by Firestore `updateDoc` onto a workshop document:
a known key with a value of the right shape replaces that field, any
other pair leaves the document unchanged. -/
def applyField (w : Workshop) : String × FireValue → Workshop
  | (k, FireValue.str s) =>
    if k == "title" then { w with title := s }
    else if k == "description" then { w with description := s }
    else if k == "date" then { w with date := s }
    else if k == "category" then { w with category := s }
    else if k == "whatsappLink" then { w with whatsappLink := s }
    else if k == "imageUrl" then { w with imageUrl := s }
    else if k == "location" then { w with location := s }
    else if k == "ageGroup" then { w with ageGroup := s }
    else w
  | (k, FireValue.num q) =>
    if k == "price" then { w with price := q }
    else if k == "rating" then { w with rating := some q }
    else w
  | (k, FireValue.nat n) =>
    if k == "ratingCount" then { w with ratingCount := some n }
    else w
  | (k, FireValue.rmap m) =>
    if k == "ratings" then { w with ratings := some m }
    else w
  | (_, FireValue.file _) => w

/-- Firestore `updateDoc` on a workshop document: merge every payload
field into the document, left to right. -/
def applyUpdateDoc (w : Workshop) (payload : List (String × FireValue)) :
    Workshop :=
  payload.foldl applyField w

/-- A registration document (the object created at lines 142-149 of
src/firebase/workshopActions.ts). -/
structure Registration where
  workshopId : String
  userId : String
  receiptUrl : String
  status : String
  consentAccepted : Bool
deriving DecidableEq

/-- Firestore `arrayUnion`: append the element only when it is not
already present. -/
def arrayUnionElem (l : List String) (x : String) : List String :=
  if l.contains x then l else l ++ [x]

/-- The per-user registration state touched by `registerForWorkshop`:
the registrations collection and the user's `registeredWorkshops`. -/
structure RegState where
  registrations : List Registration
  registeredWorkshops : List String
deriving DecidableEq

/-- Lines 129-139: the receipt URL is "" unless a receipt file is
supplied, in which case it is the URL the storage upload returns. -/
def receiptUrlOf (receiptFile : Option JsFile) (uploadedUrl : String) :
    String :=
  match receiptFile with
  | some _ => uploadedUrl
  | none => ""

/-- Lines 124-156, `registerForWorkshop`: upload the receipt when one is
supplied, create a registration with status "pending" and
`consentAccepted: true`, and add the workshop id to the user's
`registeredWorkshops` with `arrayUnion`. -/
def registerForWorkshop (st : RegState) (workshopId userId : String)
    (receiptFile : Option JsFile) (uploadedUrl : String) : RegState :=
  { registrations := st.registrations ++
      [{ workshopId := workshopId, userId := userId,
         receiptUrl := receiptUrlOf receiptFile uploadedUrl,
         status := "pending", consentAccepted := true }],
    registeredWorkshops := arrayUnionElem st.registeredWorkshops workshopId }

/-! ### Helper lemmas -/

/-- An empty needle is an infix of every character list. -/
lemma chListInfixOf_nil (l : List Char) : chListInfixOf [] l = true := by
  cases l <;> simp [chListInfixOf, chListPrefixOf, List.isEmpty]

/-- Folding `+` from an accumulator adds the list sum. -/
lemma foldl_add_eq_sum (l : List ℚ) (a : ℚ) :
    l.foldl (fun x y => x + y) a = a + l.sum := by
  induction l generalizing a with
  | nil => simp
  | cons b t ih => simp [List.foldl, ih, add_assoc]

/-- Folding an accumulation of `f` values adds the mapped sum. -/
lemma foldl_add_map_eq_sum {α : Type} (f : α → ℚ) (l : List α) (a : ℚ) :
    l.foldl (fun acc x => acc + f x) a = a + (l.map f).sum := by
  induction l generalizing a with
  | nil => simp
  | cons b t ih => simp [List.foldl, ih, add_assoc]

/-- The key test is unchanged by the replace-at-key function. -/
lemma setFun_fst (u : String) (v : ℚ) (p : String × ℚ) :
    ((if p.1 == u then (u, v) else p).1 == u) = (p.1 == u) := by
  by_cases h : p.1 = u <;> simp [h]

/-- When the key is present, the replaced map's first hit at the key is
the new pair. -/
lemma find?_map_setKey (m : RatingsMap) (u : String) (v : ℚ)
    (h : m.any (fun p => p.1 == u) = true) :
    (m.map (fun p => if p.1 == u then (u, v) else p)).find?
      (fun p => p.1 == u) = some (u, v) := by
  induction m with
  | nil => simp at h
  | cons a t ih =>
    by_cases ha : a.1 = u
    · rw [List.map_cons, List.find?_cons_of_pos]
      · simp [ha]
      · simp [ha]
    · rw [List.map_cons, List.find?_cons_of_neg]
      · apply ih
        simp only [List.any_cons] at h
        simpa [ha] using h
      · simp [ha]

/-- After `setKey m u v`, reading key `u` gives `v`. -/
lemma getKey_setKey (m : RatingsMap) (u : String) (v : ℚ) :
    getKey (setKey m u v) u = some v := by
  unfold setKey
  cases h : m.any (fun p => p.1 == u) with
  | true =>
    simp only [h, if_true]
    rw [getKey, find?_map_setKey m u v h]
    rfl
  | false =>
    simp only [h, Bool.false_eq_true, if_false]
    have hfind : (m ++ [(u, v)]).find? (fun p => p.1 == u) = some (u, v) := by
      induction m with
      | nil => simp [List.find?]
      | cons a t ih =>
        simp only [List.any_cons, Bool.or_eq_false_iff] at h
        have h1 : ¬(a.1 = u) := by simpa using h.1
        rw [List.cons_append, List.find?_cons_of_neg]
        · exact ih h.2
        · simp [h1]
    simp [getKey, hfind]

/-- Replacing the value at a key does not change which keys are present. -/
lemma any_key_map_setKey (m : RatingsMap) (u : String) (v : ℚ) :
    ((m.map (fun p => if p.1 == u then (u, v) else p)).any
      (fun p => p.1 == u)) = m.any (fun p => p.1 == u) := by
  induction m with
  | nil => rfl
  | cons a t ih =>
    simp only [List.map_cons, List.any_cons, setFun_fst, ih]

/-- If the key is absent, the replacing map is the identity. -/
lemma map_setKey_id (m : RatingsMap) (u : String) (v : ℚ)
    (h : m.any (fun p => p.1 == u) = false) :
    m.map (fun p => if p.1 == u then (u, v) else p) = m := by
  induction m with
  | nil => rfl
  | cons a t ih =>
    simp only [List.any_cons, Bool.or_eq_false_iff] at h
    have h1 : ¬(a.1 = u) := by simpa using h.1
    rw [List.map_cons, if_neg (by simpa using h1), ih h.2]

/-- Two successive upserts at the same key collapse to the second one. -/
lemma setKey_setKey (m : RatingsMap) (u : String) (v1 v2 : ℚ) :
    setKey (setKey m u v1) u v2 = setKey m u v2 := by
  cases h : m.any (fun p => p.1 == u) with
  | true =>
    unfold setKey
    simp only [h, if_true, any_key_map_setKey, List.map_map]
    apply List.map_congr_left
    intro p _
    by_cases hp : p.1 = u <;> simp [hp, Function.comp]
  | false =>
    unfold setKey
    simp only [h, Bool.false_eq_true, if_false]
    have h2 : ((m ++ [(u, v1)]).any (fun p => p.1 == u)) = true := by
      simp [List.any_append]
    simp only [h2, if_true, List.map_append, map_setKey_id m u v2 h]
    simp

/-- Upserting at an already present key keeps the map length. -/
lemma length_setKey_of_hasKey (m : RatingsMap) (u : String) (v : ℚ)
    (h : hasKey m u = true) :
    (setKey m u v).length = m.length := by
  unfold setKey
  unfold hasKey at h
  simp [h]

/-! ### Claim theorems -/

/-- C1: after `submitRating(record, userId, ratingValue)` (`handleRate` in
the code), the updated record has `ratings[userId] = ratingValue`,
`rating` equal to the arithmetic mean of all values of the updated
ratings map, and `ratingCount` equal to the number of its entries, for
every record and every integer rating value in [1,5]; in particular the
workshop with `ratings = {u1:4, u2:5}` rated 2 by u1 yields
`ratings = {u1:2, u2:5}`, `rating = 3.5` and `ratingCount = 2`. -/
theorem submitRating_upsert_mean_count (w : Workshop) (u : String) (v : ℤ)
    (_h1 : 1 ≤ v) (_h5 : v ≤ 5) :
    (getKey ((rateRecord w u (v : ℚ)).ratings.getD []) u = some (v : ℚ) ∧
     (rateRecord w u (v : ℚ)).rating = some (listMean
       (((rateRecord w u (v : ℚ)).ratings.getD []).map Prod.snd)) ∧
     (rateRecord w u (v : ℚ)).ratingCount = some
       (((rateRecord w u (v : ℚ)).ratings.getD []).length)) ∧
    rateRecord exampleWorkshop "u1" 2 =
      { exampleWorkshop with ratings := some [("u1", 2), ("u2", 5)],
                             rating := some (7 / 2),
                             ratingCount := some 2 } := by
  refine ⟨⟨?_, ?_, ?_⟩, ?_⟩
  · simpa [rateRecord, computeRating] using
      getKey_setKey (w.ratings.getD []) u (v : ℚ)
  · simp [rateRecord, computeRating, listMean, foldl_add_eq_sum]
  · simp [rateRecord, computeRating]
  · simp [rateRecord, computeRating, setKey, exampleWorkshop]
    norm_num

/-- Witness for C1 at the worked example: the hypotheses hold at the
concrete rating value 2 and the conclusion evaluates there. -/
theorem submitRating_upsert_mean_count_witness :
    ((1 : ℤ) ≤ 2 ∧ (2 : ℤ) ≤ 5) ∧
    ((getKey ((rateRecord exampleWorkshop "u1" ((2 : ℤ) : ℚ)).ratings.getD
        []) "u1" = some ((2 : ℤ) : ℚ) ∧
      (rateRecord exampleWorkshop "u1" ((2 : ℤ) : ℚ)).rating = some (listMean
        (((rateRecord exampleWorkshop "u1" ((2 : ℤ) : ℚ)).ratings.getD
          []).map Prod.snd)) ∧
      (rateRecord exampleWorkshop "u1" ((2 : ℤ) : ℚ)).ratingCount = some
        (((rateRecord exampleWorkshop "u1" ((2 : ℤ) : ℚ)).ratings.getD
          []).length)) ∧
     rateRecord exampleWorkshop "u1" 2 =
       { exampleWorkshop with ratings := some [("u1", 2), ("u2", 5)],
                              rating := some (7 / 2),
                              ratingCount := some 2 }) :=
  ⟨⟨by decide, by decide⟩,
   submitRating_upsert_mean_count exampleWorkshop "u1" 2 (by decide)
     (by decide)⟩

/-- With empty search text the search predicate accepts everything. -/
lemma matchesSearch_vacuous (c : FilterCriteria) (h : c.search = "")
    (w : Workshop) : matchesSearch c w = true := by
  have h0 : lowerChars "" = ([] : List Char) := rfl
  simp only [matchesSearch, strIncludes, h, h0]
  exact chListInfixOf_nil _

/-- With selector "All" the category predicate accepts everything. -/
lemma matchesCategory_vacuous (c : FilterCriteria) (h : c.category = "All")
    (w : Workshop) : matchesCategory c w = true := by
  simp [matchesCategory, h]

/-- With selector "All" the vendor predicate accepts everything. -/
lemma matchesVendor_vacuous (c : FilterCriteria)
    (h : c.vendorFilter = "All") (w : Workshop) :
    matchesVendor c w = true := by
  simp [matchesVendor, h]

/-- With selector "All" the location predicate accepts everything. -/
lemma matchesLocation_vacuous (c : FilterCriteria) (h : c.location = "All")
    (w : Workshop) : matchesLocation c w = true := by
  simp [matchesLocation, h]

/-- With selector "All" the age-group predicate accepts everything. -/
lemma matchesAge_vacuous (c : FilterCriteria) (h : c.ageGroup = "All")
    (w : Workshop) : matchesAge c w = true := by
  simp [matchesAge, h]

/-- With selector "All" the price predicate accepts everything. -/
lemma matchesPrice_vacuous (c : FilterCriteria) (h : c.priceRange = "All")
    (w : Workshop) : matchesPrice c w = true := by
  simp [matchesPrice, matchesPriceB, h]

/-- With selector "All" the rating predicate accepts everything. -/
lemma matchesRating_vacuous (c : FilterCriteria)
    (h : c.ratingFilter = "All") (w : Workshop) :
    matchesRating c w = true := by
  simp [matchesRating, h]

/-- C2: the filter returns exactly the records on which the conjunction
of the seven per-criterion predicates holds, as a sublist of the input
(order preserved, no sorting), and every predicate whose criterion is
the sentinel "All" (the empty string for search) is vacuously true. -/
theorem filter_characterization (ws : List Workshop) (c : FilterCriteria) :
    List.Sublist (filteredWorkshops ws c) ws ∧
    (∀ w, w ∈ filteredWorkshops ws c ↔
      w ∈ ws ∧ matchesSearch c w = true ∧ matchesCategory c w = true ∧
      matchesVendor c w = true ∧ matchesLocation c w = true ∧
      matchesAge c w = true ∧ matchesPrice c w = true ∧
      matchesRating c w = true) ∧
    (c.search = "" → ∀ w, matchesSearch c w = true) ∧
    (c.category = "All" → ∀ w, matchesCategory c w = true) ∧
    (c.vendorFilter = "All" → ∀ w, matchesVendor c w = true) ∧
    (c.location = "All" → ∀ w, matchesLocation c w = true) ∧
    (c.ageGroup = "All" → ∀ w, matchesAge c w = true) ∧
    (c.priceRange = "All" → ∀ w, matchesPrice c w = true) ∧
    (c.ratingFilter = "All" → ∀ w, matchesRating c w = true) := by
  refine ⟨List.filter_sublist ws, ?_, matchesSearch_vacuous c,
    matchesCategory_vacuous c, matchesVendor_vacuous c,
    matchesLocation_vacuous c, matchesAge_vacuous c,
    matchesPrice_vacuous c, matchesRating_vacuous c⟩
  intro w
  rw [filteredWorkshops, List.mem_filter, workshopPred]
  simp [Bool.and_eq_true, and_assoc]

/-- Witness for C2 at a concrete input: the singleton list and the
initial criteria; the filter output is a sublist of the input. -/
theorem filter_characterization_witness :
    List.Sublist (filteredWorkshops [exampleWorkshop] allCriteria)
      [exampleWorkshop] :=
  (filter_characterization [exampleWorkshop] allCriteria).1

/-- C3: with every selector "All" and empty search text the filter is
the identity: it returns the whole input list in order. -/
theorem filter_allCriteria_id (ws : List Workshop) :
    filteredWorkshops ws allCriteria = ws := by
  rw [filteredWorkshops, List.filter_eq_self]
  intro w _
  rw [workshopPred]
  simp only [matchesSearch_vacuous allCriteria rfl w,
    matchesCategory_vacuous allCriteria rfl w,
    matchesVendor_vacuous allCriteria rfl w,
    matchesLocation_vacuous allCriteria rfl w,
    matchesAge_vacuous allCriteria rfl w,
    matchesPrice_vacuous allCriteria rfl w,
    matchesRating_vacuous allCriteria rfl w, Bool.and_true, Bool.true_and]

/-- C4: the six price buckets have exclusive lower and inclusive upper
bounds at 2500, 5000, 10000, 20000, 30000, except the first
(`price ≤ 2500`) and the last (`price > 30000`); in particular the first
bucket accepts price 2500 and rejects price 2501. -/
theorem price_bucket_boundaries (p : ℚ) :
    (matchesPriceB "0-2500" p = decide (p ≤ 2500)) ∧
    (matchesPriceB "2500-5000" p =
      (decide (2500 < p) && decide (p ≤ 5000))) ∧
    (matchesPriceB "5000-10000" p =
      (decide (5000 < p) && decide (p ≤ 10000))) ∧
    (matchesPriceB "10000-20000" p =
      (decide (10000 < p) && decide (p ≤ 20000))) ∧
    (matchesPriceB "20000-30000" p =
      (decide (20000 < p) && decide (p ≤ 30000))) ∧
    (matchesPriceB "30000+" p = decide (30000 < p)) ∧
    matchesPriceB "0-2500" 2500 = true ∧
    matchesPriceB "0-2500" 2501 = false := by
  refine ⟨by simp [matchesPriceB], by simp [matchesPriceB],
    by simp [matchesPriceB], by simp [matchesPriceB],
    by simp [matchesPriceB], by simp [matchesPriceB], ?_, ?_⟩
  · simp [matchesPriceB]
  · simp [matchesPriceB]
    norm_num

/-- C5: a price-bucket selector that is none of the six recognized
bucket names accepts every price (the chain of `if` statements has no
final `else`, so `matchesPrice` keeps its initial value `true`). -/
theorem price_bucket_fail_open (s : String) (p : ℚ)
    (h : s ∉ (["0-2500", "2500-5000", "5000-10000", "10000-20000",
               "20000-30000", "30000+"] : List String)) :
    matchesPriceB s p = true := by
  simp only [List.mem_cons, List.not_mem_nil, or_false, not_or] at h
  obtain ⟨h1, h2, h3, h4, h5, h6⟩ := h
  simp [matchesPriceB, h1, h2, h3, h4, h5, h6]

/-- Witness for C5: the selector "All" is unrecognized and accepts a
price of 0. -/
theorem price_bucket_fail_open_witness :
    ("All" ∉ (["0-2500", "2500-5000", "5000-10000", "10000-20000",
               "20000-30000", "30000+"] : List String)) ∧
    matchesPriceB "All" 0 = true :=
  ⟨by decide, price_bucket_fail_open "All" 0 (by decide)⟩

/-- C6: `submitRating` is an upsert with last-write-wins semantics: when
the user already has a rating, a new submission keeps `ratingCount`
equal to the unchanged size of the ratings map, and two successive
submissions by the same user produce the same ratings map, rating and
ratingCount as the second submission alone. -/
theorem submitRating_last_write_wins (r : Workshop) (u : String)
    (v1 v2 : ℚ) (hk : hasKey (r.ratings.getD []) u = true) :
    (rateRecord r u v1).ratingCount =
      some ((r.ratings.getD []).length) ∧
    (rateRecord (rateRecord r u v1) u v2).ratings =
      (rateRecord r u v2).ratings ∧
    (rateRecord (rateRecord r u v1) u v2).rating =
      (rateRecord r u v2).rating ∧
    (rateRecord (rateRecord r u v1) u v2).ratingCount =
      (rateRecord r u v2).ratingCount := by
  refine ⟨?_, ?_, ?_, ?_⟩
  · simp [rateRecord, computeRating, List.length_map,
      length_setKey_of_hasKey (r.ratings.getD []) u v1 hk]
  · simp [rateRecord, computeRating, setKey_setKey]
  · simp [rateRecord, computeRating, setKey_setKey]
  · simp [rateRecord, computeRating, setKey_setKey]

/-- Witness for C6: user u1 already has a rating in the example
workshop; rating 2 then 3 collapses to rating 3. -/
theorem submitRating_last_write_wins_witness :
    hasKey (exampleWorkshop.ratings.getD []) "u1" = true ∧
    ((rateRecord exampleWorkshop "u1" 2).ratingCount =
       some ((exampleWorkshop.ratings.getD []).length) ∧
     (rateRecord (rateRecord exampleWorkshop "u1" 2) "u1" 3).ratings =
       (rateRecord exampleWorkshop "u1" 3).ratings ∧
     (rateRecord (rateRecord exampleWorkshop "u1" 2) "u1" 3).rating =
       (rateRecord exampleWorkshop "u1" 3).rating ∧
     (rateRecord (rateRecord exampleWorkshop "u1" 2) "u1" 3).ratingCount =
       (rateRecord exampleWorkshop "u1" 3).ratingCount) :=
  ⟨rfl, submitRating_last_write_wins exampleWorkshop "u1" 2 3 rfl⟩

/-- The revenue example of the specification: one workshop priced 1000. -/
def revenueWorkshop : Workshop :=
  { id := "w1", title := "Cooking", description := "", price := 1000,
    category := "Cooking", imageUrl := "", date := "2026-02-02",
    vendorId := "vend1", location := "Kandy", ageGroup := "Adults",
    whatsappLink := "", rating := none, ratingCount := none,
    ratings := none }

/-- A participant with only a status, as in the revenue example. -/
def statusParticipant (uid : String) (status : Option String) :
    Participant :=
  { uid := uid, displayName := uid, email := "", phoneNumber := none,
    receiptUrl := none, status := status, registrationId := none }

/-- The participants map of the revenue example: one pending, one
approved and one rejected participant for workshop "w1". -/
def revenueParticipantsMap (wid : String) : Option (List Participant) :=
  if wid == "w1" then
    some [statusParticipant "a" (some "pending"),
          statusParticipant "b" (some "approved"),
          statusParticipant "c" (some "rejected")]
  else none

/-- C7: `totalRevenue` is the sum over all records of the record's price
times the number of its participants whose status is "approved",
"pending" or absent; the example workshop priced 1000 with a pending, an
approved and a rejected participant yields 2000. -/
theorem totalRevenue_spec (ws : List Workshop)
    (pmap : String → Option (List Participant)) :
    totalRevenue ws pmap =
      (ws.map (fun w =>
        w.price * (Nat.cast (revenueCount (pmap w.id)) : ℚ))).sum ∧
    totalRevenue [revenueWorkshop] revenueParticipantsMap = 2000 := by
  constructor
  · rw [totalRevenue]
    rw [foldl_add_map_eq_sum
      (fun w => w.price * (Nat.cast (revenueCount (pmap w.id)) : ℚ)) ws 0]
    rw [zero_add]
  · simp [totalRevenue, revenueCount, revenueParticipantsMap,
      revenueWorkshop, countsAsRevenue, statusParticipant]
    norm_num

/-- C8 as stated is false on the code: an unauthenticated rating attempt
is aborted silently — `handleRate` returns with no effect at all, in
particular with no blocking notice shown to the user. -/
theorem unauthenticated_rating_silent :
    (handleRate none [] "w1" 5).1 = [] ∧
    (handleRate none [] "w1" 5).2 = [] ∧
    ((handleRate none [] "w1" 5).2.any Effect.isNotice) = false :=
  ⟨rfl, rfl, rfl⟩

/-- C8 (amended): every unauthenticated action is aborted with no state
written; favoriting and registering surface a blocking alert, while
rating aborts silently with no notice. -/
theorem unauthenticated_actions_abort (ws : List Workshop)
    (wid : String) (v : ℚ) (ud : Option UserData) :
    handleRate none ws wid v = (ws, []) ∧
    toggleFavorite none ud wid =
      [Effect.alert "Please login to add to favorites."] ∧
    handleRegisterClick none =
      [Effect.preventDefault,
       Effect.alert "Register or login to register for a workshop"] ∧
    ((toggleFavorite none ud wid).all (fun e => !e.isWrite)) = true ∧
    ((handleRegisterClick none).all (fun e => !e.isWrite)) = true ∧
    ((handleRate none ws wid v).2.all (fun e => !e.isWrite)) = true ∧
    ((toggleFavorite none ud wid).any Effect.isNotice) = true ∧
    ((handleRegisterClick none).any Effect.isNotice) = true := by
  refine ⟨rfl, ?_, rfl, ?_, rfl, rfl, ?_, rfl⟩
  · cases ud <;> rfl
  · cases ud <;> rfl
  · cases ud <;> rfl

/-- Membership in a single optional object field. -/
lemma mem_optEntry {n : String} {v : Option FireValue}
    {p : String × FireValue} (h : p ∈ optEntry n v) :
    p.1 = n ∧ v = some p.2 := by
  cases v with
  | none => simp [optEntry] at h
  | some x =>
    simp only [optEntry, List.mem_singleton] at h
    subst h
    exact ⟨rfl, rfl⟩

/-- Every entry of the object spread of a workshop patch is one of its
seven fields, with a value of the field's shape. -/
lemma spread_entry (d : WorkshopDataPatch) (p : String × FireValue)
    (hp : p ∈ spreadFields d) :
    (p.1 = "title" ∧ ∃ s, p.2 = FireValue.str s) ∨
    (p.1 = "description" ∧ ∃ s, p.2 = FireValue.str s) ∨
    (p.1 = "price" ∧ ∃ q, p.2 = FireValue.num q) ∨
    (p.1 = "date" ∧ ∃ s, p.2 = FireValue.str s) ∨
    (p.1 = "category" ∧ ∃ s, p.2 = FireValue.str s) ∨
    (p.1 = "image" ∧ ∃ f, p.2 = FireValue.file f) ∨
    (p.1 = "whatsappLink" ∧ ∃ s, p.2 = FireValue.str s) := by
  simp only [spreadFields, List.mem_append] at hp
  rcases hp with ((((((h | h) | h) | h) | h) | h) | h)
  · obtain ⟨hn, hv⟩ := mem_optEntry h
    obtain ⟨a, _, ha⟩ := Option.map_eq_some'.1 hv
    exact Or.inl ⟨hn, a, ha.symm⟩
  · obtain ⟨hn, hv⟩ := mem_optEntry h
    obtain ⟨a, _, ha⟩ := Option.map_eq_some'.1 hv
    exact Or.inr (Or.inl ⟨hn, a, ha.symm⟩)
  · obtain ⟨hn, hv⟩ := mem_optEntry h
    obtain ⟨a, _, ha⟩ := Option.map_eq_some'.1 hv
    exact Or.inr (Or.inr (Or.inl ⟨hn, a, ha.symm⟩))
  · obtain ⟨hn, hv⟩ := mem_optEntry h
    obtain ⟨a, _, ha⟩ := Option.map_eq_some'.1 hv
    exact Or.inr (Or.inr (Or.inr (Or.inl ⟨hn, a, ha.symm⟩)))
  · obtain ⟨hn, hv⟩ := mem_optEntry h
    obtain ⟨a, _, ha⟩ := Option.map_eq_some'.1 hv
    exact Or.inr (Or.inr (Or.inr (Or.inr (Or.inl ⟨hn, a, ha.symm⟩))))
  · obtain ⟨hn, hv⟩ := mem_optEntry h
    obtain ⟨a, _, ha⟩ := Option.map_eq_some'.1 hv
    exact Or.inr (Or.inr (Or.inr (Or.inr (Or.inr (Or.inl ⟨hn, a, ha.symm⟩)))))
  · obtain ⟨hn, hv⟩ := mem_optEntry h
    obtain ⟨a, _, ha⟩ := Option.map_eq_some'.1 hv
    exact Or.inr (Or.inr (Or.inr (Or.inr (Or.inr (Or.inr ⟨hn, a, ha.symm⟩)))))

/-- Every entry of the update payload is either a non-image spread field
or the added `imageUrl` string. -/
lemma mem_updateWorkshopPayload (d : WorkshopDataPatch) (url : String)
    (p : String × FireValue) (hp : p ∈ updateWorkshopPayload d url) :
    (p ∈ spreadFields d ∧ p.1 ≠ "image") ∨
    (p.1 = "imageUrl" ∧ ∃ s, p.2 = FireValue.str s) := by
  simp only [updateWorkshopPayload] at hp
  split at hp
  · obtain ⟨hm, hpr⟩ := List.mem_filter.1 hp
    exact Or.inl ⟨hm, by simpa using hpr⟩
  · rcases List.mem_append.1 hp with h | h
    · obtain ⟨hm, hpr⟩ := List.mem_filter.1 h
      exact Or.inl ⟨hm, by simpa using hpr⟩
    · rw [List.mem_singleton] at h
      subst h
      exact Or.inr ⟨rfl, _, rfl⟩

/-- A single `updateDoc` field write away from `ratings`, `rating` and
`ratingCount` leaves those three fields unchanged. -/
lemma applyField_frame_ratingFields (w : Workshop) (a : String × FireValue)
    (h1 : a.1 ≠ "ratings") (h2 : a.1 ≠ "rating")
    (h3 : a.1 ≠ "ratingCount") :
    (applyField w a).ratings = w.ratings ∧
    (applyField w a).rating = w.rating ∧
    (applyField w a).ratingCount = w.ratingCount := by
  obtain ⟨k, v⟩ := a
  cases v <;> simp only [applyField] <;>
    first
      | (split_ifs <;> simp_all)
      | simp_all

/-- A single `updateDoc` field write away from `imageUrl` leaves
`imageUrl` unchanged. -/
lemma applyField_frame_imageUrl (w : Workshop) (a : String × FireValue)
    (h : a.1 ≠ "imageUrl") :
    (applyField w a).imageUrl = w.imageUrl := by
  obtain ⟨k, v⟩ := a
  cases v <;> simp only [applyField] <;> split_ifs <;> simp_all

/-- `updateDoc` with a payload that never names the rating fields leaves
them unchanged. -/
lemma applyUpdateDoc_frame_ratingFields (payload : List (String × FireValue))
    (w : Workshop)
    (h : ∀ p ∈ payload,
      p.1 ≠ "ratings" ∧ p.1 ≠ "rating" ∧ p.1 ≠ "ratingCount") :
    (applyUpdateDoc w payload).ratings = w.ratings ∧
    (applyUpdateDoc w payload).rating = w.rating ∧
    (applyUpdateDoc w payload).ratingCount = w.ratingCount := by
  induction payload generalizing w with
  | nil => exact ⟨rfl, rfl, rfl⟩
  | cons a t ih =>
    have ha := h a (List.mem_cons_self a t)
    have hstep := applyField_frame_ratingFields w a ha.1 ha.2.1 ha.2.2
    have hrest := ih (applyField w a)
      (fun p hp => h p (List.mem_cons_of_mem a hp))
    exact ⟨hrest.1.trans hstep.1, hrest.2.1.trans hstep.2.1,
      hrest.2.2.trans hstep.2.2⟩

/-- `updateDoc` with a payload that never names `imageUrl` leaves it
unchanged. -/
lemma applyUpdateDoc_frame_imageUrl (payload : List (String × FireValue))
    (w : Workshop) (h : ∀ p ∈ payload, p.1 ≠ "imageUrl") :
    (applyUpdateDoc w payload).imageUrl = w.imageUrl := by
  induction payload generalizing w with
  | nil => rfl
  | cons a t ih =>
    have hstep := applyField_frame_imageUrl w a (h a (List.mem_cons_self a t))
    have hrest := ih (applyField w a)
      (fun p hp => h p (List.mem_cons_of_mem a hp))
    exact hrest.trans hstep

/-- Every key of the update payload avoids the three rating fields. -/
lemma updateWorkshopPayload_keys (d : WorkshopDataPatch) (url : String) :
    ∀ p ∈ updateWorkshopPayload d url,
      p.1 ≠ "ratings" ∧ p.1 ≠ "rating" ∧ p.1 ≠ "ratingCount" := by
  intro p hp
  rcases mem_updateWorkshopPayload d url p hp with ⟨hm, _⟩ | ⟨hn, _⟩
  · rcases spread_entry d p hm with
      ⟨hn, _⟩ | ⟨hn, _⟩ | ⟨hn, _⟩ | ⟨hn, _⟩ | ⟨hn, _⟩ | ⟨hn, _⟩ | ⟨hn, _⟩ <;>
      simp [hn]
  · simp [hn]

/-- A patch that only renames the workshop, with no new image file. -/
def titlePatch : WorkshopDataPatch :=
  { title := some "New title", description := none, price := none,
    date := none, category := none, image := none, whatsappLink := none }

/-- C9: a vendor edit (`updateWorkshop`) leaves the stored `ratings`
map and the derived `rating` and `ratingCount` unchanged for every
update payload, never writes the raw image file object to the record,
and leaves `imageUrl` unchanged when no new image is supplied. -/
theorem updateWorkshop_frame (w : Workshop) (d : WorkshopDataPatch)
    (url : String) :
    (applyUpdateDoc w (updateWorkshopPayload d url)).ratings =
      w.ratings ∧
    (applyUpdateDoc w (updateWorkshopPayload d url)).rating = w.rating ∧
    (applyUpdateDoc w (updateWorkshopPayload d url)).ratingCount =
      w.ratingCount ∧
    (∀ p ∈ updateWorkshopPayload d url, ∀ f : JsFile,
      p.2 ≠ FireValue.file f) ∧
    (d.image = none →
      (applyUpdateDoc w (updateWorkshopPayload d url)).imageUrl =
        w.imageUrl) := by
  obtain ⟨hr1, hr2, hr3⟩ := applyUpdateDoc_frame_ratingFields
    (updateWorkshopPayload d url) w (updateWorkshopPayload_keys d url)
  refine ⟨hr1, hr2, hr3, ?_, ?_⟩
  · intro p hp f
    rcases mem_updateWorkshopPayload d url p hp with ⟨hm, hni⟩ | ⟨_, s, hs⟩
    · rcases spread_entry d p hm with
        ⟨_, s, hs⟩ | ⟨_, s, hs⟩ | ⟨_, q, hs⟩ | ⟨_, s, hs⟩ | ⟨_, s, hs⟩ |
        ⟨hn, _⟩ | ⟨_, s, hs⟩ <;> simp_all
    · simp [hs]
  · intro him
    apply applyUpdateDoc_frame_imageUrl
    intro p hp
    have hpay : updateWorkshopPayload d url =
        (spreadFields d).filter (fun p => !(p.1 == "image")) := by
      simp [updateWorkshopPayload, him]
    rw [hpay] at hp
    have hm := (List.mem_filter.1 hp).1
    rcases spread_entry d p hm with
      ⟨hn, _⟩ | ⟨hn, _⟩ | ⟨hn, _⟩ | ⟨hn, _⟩ | ⟨hn, _⟩ | ⟨hn, _⟩ | ⟨hn, _⟩ <;>
      simp [hn]

/-- Witness for C9 at a concrete edit: renaming the example workshop
with no new image leaves the rating fields and the image URL alone. -/
theorem updateWorkshop_frame_witness :
    (applyUpdateDoc exampleWorkshop
        (updateWorkshopPayload titlePatch "")).ratings =
      exampleWorkshop.ratings ∧
    (applyUpdateDoc exampleWorkshop
        (updateWorkshopPayload titlePatch "")).rating =
      exampleWorkshop.rating ∧
    (applyUpdateDoc exampleWorkshop
        (updateWorkshopPayload titlePatch "")).ratingCount =
      exampleWorkshop.ratingCount ∧
    (applyUpdateDoc exampleWorkshop
        (updateWorkshopPayload titlePatch "")).imageUrl =
      exampleWorkshop.imageUrl := by
  have h := updateWorkshop_frame exampleWorkshop titlePatch ""
  exact ⟨h.1, h.2.1, h.2.2.1, h.2.2.2.2 rfl⟩

/-- Adding an element twice with `arrayUnion` is the same as adding it
once. -/
lemma arrayUnionElem_idem (l : List String) (x : String) :
    arrayUnionElem (arrayUnionElem l x) x = arrayUnionElem l x := by
  unfold arrayUnionElem
  by_cases h : x ∈ l
  · simp [h]
  · simp [h]

/-- `arrayUnion` keeps the multiplicity of the added element at most 1
when it was at most 1. -/
lemma count_arrayUnionElem (l : List String) (x : String)
    (h : List.count x l ≤ 1) :
    List.count x (arrayUnionElem l x) ≤ 1 := by
  unfold arrayUnionElem
  by_cases hc : x ∈ l
  · simpa [hc] using h
  · simp [hc, List.count_append, List.count_eq_zero.2 hc]

/-- The empty registration state. -/
def emptyRegState : RegState :=
  { registrations := [], registeredWorkshops := [] }

/-- C10: every registration created by `registerForWorkshop` starts with
status "pending" and `consentAccepted` true, the user's
`registeredWorkshops` is updated by set-union, and registering twice for
the same workshop leaves at most one entry of that workshop id. -/
theorem registerForWorkshop_spec (st : RegState) (wid uid : String)
    (f : Option JsFile) (url url2 : String)
    (h : List.count wid st.registeredWorkshops ≤ 1) :
    (registerForWorkshop st wid uid f url).registrations =
      st.registrations ++
        [{ workshopId := wid, userId := uid,
           receiptUrl := receiptUrlOf f url, status := "pending",
           consentAccepted := true }] ∧
    (∀ r ∈ (registerForWorkshop st wid uid f url).registrations,
      r ∈ st.registrations ∨
        (r.status = "pending" ∧ r.consentAccepted = true)) ∧
    (registerForWorkshop st wid uid f url).registeredWorkshops =
      arrayUnionElem st.registeredWorkshops wid ∧
    (registerForWorkshop (registerForWorkshop st wid uid f url) wid uid f
        url2).registeredWorkshops =
      (registerForWorkshop st wid uid f url).registeredWorkshops ∧
    List.count wid
      (registerForWorkshop (registerForWorkshop st wid uid f url) wid uid
        f url2).registeredWorkshops ≤ 1 := by
  refine ⟨rfl, ?_, rfl, ?_, ?_⟩
  · intro r hr
    simp only [registerForWorkshop, List.mem_append,
      List.mem_singleton] at hr
    rcases hr with hr | hr
    · exact Or.inl hr
    · subst hr
      exact Or.inr ⟨rfl, rfl⟩
  · simp [registerForWorkshop, arrayUnionElem_idem]
  · simp only [registerForWorkshop, arrayUnionElem_idem]
    exact count_arrayUnionElem st.registeredWorkshops wid h

/-- Witness for C10: registering twice from the empty state leaves one
entry of the workshop id. -/
theorem registerForWorkshop_spec_witness :
    List.count "w1" emptyRegState.registeredWorkshops ≤ 1 ∧
    ((registerForWorkshop emptyRegState "w1" "u1" none "").registrations =
       emptyRegState.registrations ++
         [{ workshopId := "w1", userId := "u1",
            receiptUrl := receiptUrlOf none "", status := "pending",
            consentAccepted := true }] ∧
     (∀ r ∈ (registerForWorkshop emptyRegState "w1" "u1" none
         "").registrations,
       r ∈ emptyRegState.registrations ∨
         (r.status = "pending" ∧ r.consentAccepted = true)) ∧
     (registerForWorkshop emptyRegState "w1" "u1" none
         "").registeredWorkshops =
       arrayUnionElem emptyRegState.registeredWorkshops "w1" ∧
     (registerForWorkshop (registerForWorkshop emptyRegState "w1" "u1"
         none "") "w1" "u1" none "").registeredWorkshops =
       (registerForWorkshop emptyRegState "w1" "u1" none
         "").registeredWorkshops ∧
     List.count "w1"
       (registerForWorkshop (registerForWorkshop emptyRegState "w1" "u1"
         none "") "w1" "u1" none "").registeredWorkshops ≤ 1) :=
  ⟨by decide,
   registerForWorkshop_spec emptyRegState "w1" "u1" none "" "" (by decide)⟩
